import Mathlib

/-!
Verification of the migraine-app UI components.

This file gives a shallow embedding, in Lean, of the two algorithmic
components of the repository:

* `VerticalPicker.tsx` — a vertically scrolling value picker.  Its pure
  logic (display-sequence construction, index lookup, the debounced
  scroll-settle computation, the external-value sync effect and the tap
  handler) is embedded as Lean functions over `ℚ` (JavaScript numbers are
  modelled exactly as rationals; all arithmetic the component performs is
  exact on the inputs of interest).  The event-driven behaviour of the
  component is embedded as a step function on an explicit engine state,
  with platform-reported scroll events, the debounce-timer expiry,
  external `selectedValue` changes and taps as the events.  JavaScript's
  `clearTimeout`/`setTimeout` pair is modelled as a single timer slot
  (starting a timer replaces the pending one), and `Math.round x` as
  `⌊x + 1/2⌋`, which agrees with it on all rationals.  Because the
  source registers its `onScroll` handler for every platform scroll
  event with no programmatic/user origin guard, every transition that
  moves the surface programmatically (the sync effect's `scrollTop`
  assignment, the tap's and the snap's smooth `scrollTo`) also delivers
  the induced scroll event to that handler, restarting the debounce
  timer.

* `WeeklyTriggerTrends.tsx` — the `processReports` pipeline: reports of
  the current month are grouped by the week number `ceil(day/7)` of their
  day-of-month, per-week averages are taken, a synthetic sleep value is
  attached, and the result is sorted by week number.  JavaScript object
  keys (`Object.entries` order) are modelled as a first-occurrence-ordered
  key list, and `Array.prototype.sort` as a merge sort.
-/

namespace Picker

/-- A JavaScript value that can appear in the picker's `values` prop:
a string or a number. -/
inductive JSVal where
  | str : String → JSVal
  | num : ℚ → JSVal
deriving DecidableEq

/-- The reserved first entry `"-"` of the display sequence. -/
def sentinel : JSVal := .str "-"

/-- The fixed per-item extent, `itemHeight = 32` in the source. -/
def itemHeight : ℚ := 32

/-- Display sequence: `["-", ...[...values].reverse()]`. -/
def allValues (values : List JSVal) : List JSVal :=
  sentinel :: values.reverse

/-- JavaScript `Array.prototype.indexOf`: the first index of `v`, or `-1`
if `v` does not occur. -/
def jsIndexOf (l : List JSVal) (v : JSVal) : Int :=
  if v ∈ l then (List.indexOf v l : Int) else -1

/-- JavaScript `Math.round`: nearest integer, ties toward positive
infinity, i.e. `⌊q + 1/2⌋`.  Defined via `Rat.floor` so that it is
directly computable. -/
def jsRound (q : ℚ) : Int := (q + 1/2).floor

theorem jsRound_eq (q : ℚ) : jsRound q = ⌊q + 1/2⌋ := by
  rw [jsRound, Rat.floor_def', ← Rat.floor_def]

/-- The index the settle step computes:
`Math.round((scrollTop + containerHeight / 2) / itemHeight)`. -/
def settleIndex (scrollTop containerHeight : ℚ) : Int :=
  jsRound ((scrollTop + containerHeight / 2) / itemHeight)

/-- JavaScript `value !== selectedValue` where `value` is a list entry
(never `null`) and `selectedValue` may be `null` (`none`).  Strict
inequality: a non-null value is never equal to `null`. -/
def neqSelected (v : JSVal) (selectedValue : Option JSVal) : Bool :=
  match selectedValue with
  | none => true
  | some w => v ≠ w

/-- The callback argument the component passes for a resolved entry:
`null` for the sentinel `"-"`, the value itself otherwise. -/
def emitted (v : JSVal) : Option JSVal :=
  if v = sentinel then none else some v

/-- The `handleScroll` body: compute the settle index from the current
scroll offset and container height; if it is inside the display sequence
and the entry there differs (strictly) from `selectedValue`, report the
callback argument, otherwise report nothing.  The result is `some cb`
when `onValueChange cb` is invoked, `none` when no callback fires. -/
def handleScroll (values : List JSVal) (selectedValue : Option JSVal)
    (scrollTop containerHeight : ℚ) : Option (Option JSVal) :=
  let av := allValues values
  let index := settleIndex scrollTop containerHeight
  if 0 ≤ index ∧ index < (av.length : Int) then
    let value := av.getD index.toNat sentinel
    if neqSelected value selectedValue then some (emitted value)
    else none
  else none

/-- The `selectedValue` sync effect body: look the selected value up
(index `0` for `null`), and if the lookup did not fail (`-1`), set
`scrollTop` to `index * itemHeight`; otherwise leave it unchanged.
The effect invokes no callback. -/
def syncEffect (values : List JSVal) (selectedValue : Option JSVal)
    (current : ℚ) : ℚ :=
  let index : Int :=
    match selectedValue with
    | some v => jsIndexOf (allValues values) v
    | none => 0
  if index ≠ -1 then (index : ℚ) * itemHeight else current

/-- The `handleItemClick` body: the callback argument (always emitted,
with no comparison against `selectedValue`) together with the target
offset `indexOf(value) * itemHeight` of the smooth scroll it issues. -/
def handleItemClick (values : List JSVal) (v : JSVal) :
    Option JSVal × ℚ :=
  (emitted v, (jsIndexOf (allValues values) v : ℚ) * itemHeight)

/-- The state of one mounted picker: the scroll surface's offset, its
visible extent (`offsetHeight`), whether a debounce timer is pending
(the single `scrollTimeout` slot), and the externally owned
`selectedValue` prop as the component currently sees it. -/
structure Engine where
  scrollTop : ℚ
  containerHeight : ℚ
  timerPending : Bool
  selectedValue : Option JSVal
deriving DecidableEq

/-- The events that drive the component. -/
inductive Event where
  | userScroll : ℚ → Event
  | timerFire : Event
  | externalSet : Option JSVal → Event
  | tap : JSVal → Event
deriving DecidableEq

/-- What one event produces: the next engine state, the arguments of the
`onValueChange` calls made (in order), and the target of the
`scrollTo`-style programmatic scroll issued, if any.  The sync effect's
direct `scrollTop` assignment is not a `scrollTo` call and is recorded
only in the state. -/
structure StepResult where
  engine : Engine
  callbacks : List (Option JSVal)
  progScroll : Option ℚ
deriving DecidableEq

/-- One step of the component.  `userScroll` is the platform's scroll
event handler `onScroll`: it records the new offset and (re)starts the
single debounce timer (`clearTimeout` then `setTimeout`).  `timerFire`
is the debounce timer expiring: it runs `handleScroll` and then issues
the snap scroll to `settleIndex * itemHeight`.  `externalSet` is the
parent changing `selectedValue`, which runs the sync effect.  `tap` runs
`handleItemClick`.

The source registers `onScroll` for every platform scroll event with no
programmatic/user origin guard, and the platform fires a scroll event
whenever the surface's offset actually changes — also for the sync
effect's direct `scrollTop` assignment, for the tap's smooth `scrollTo`
and for the snap's smooth `scrollTo`.  Each step therefore folds the
delivery of those induced events into the same transition: whenever a
case moves the offset, the debounce timer ends up restarted, exactly as
`onScroll` leaves it.  Intermediate events of a smooth animation are
omitted: each would only restart the timer again, and the last one
leaves the offset at the target. -/
def step (values : List JSVal) (e : Engine) : Event → StepResult
  | .userScroll t =>
      ⟨{ e with scrollTop := t, timerPending := true }, [], none⟩
  | .timerFire =>
      if e.timerPending then
        let cb := handleScroll values e.selectedValue e.scrollTop e.containerHeight
        let target := (settleIndex e.scrollTop e.containerHeight : ℚ) * itemHeight
        ⟨{ e with scrollTop := target,
                  timerPending := decide (target ≠ e.scrollTop) },
         cb.toList, some target⟩
      else ⟨e, [], none⟩
  | .externalSet v =>
      let newTop := syncEffect values v e.scrollTop
      ⟨{ e with selectedValue := v, scrollTop := newTop,
                timerPending :=
                  if newTop ≠ e.scrollTop then true else e.timerPending },
       [], none⟩
  | .tap v =>
      let r := handleItemClick values v
      ⟨{ e with scrollTop := r.2,
                timerPending :=
                  if r.2 ≠ e.scrollTop then true else e.timerPending },
       [r.1], some r.2⟩

/-- Run a sequence of events, collecting all callback arguments. -/
def run (values : List JSVal) : Engine → List Event → Engine × List (Option JSVal)
  | e, [] => (e, [])
  | e, ev :: evs =>
      let r := step values e ev
      let rest := run values r.engine evs
      (rest.1, r.callbacks ++ rest.2)

theorem jsIndexOf_of_mem {l : List JSVal} {v : JSVal} (h : v ∈ l) :
    jsIndexOf l v = (List.indexOf v l : Int) := by
  simp [jsIndexOf, h]

theorem allValues_nodup {values : List JSVal} (hnd : values.Nodup)
    (hs : sentinel ∉ values) : (allValues values).Nodup := by
  refine List.nodup_cons.2 ⟨?_, List.nodup_reverse.2 hnd⟩
  simpa using hs

/-- C5: for every input value list the display sequence is the sentinel
followed by the input in reverse order: its length is input length + 1,
its first entry is the sentinel, the empty input gives `[sentinel]`, and
`[10, 20, 30]` gives `[sentinel, 30, 20, 10]` with `indexOf 20 = 2`. -/
theorem displaySequence_shape (values : List JSVal) :
    allValues values = sentinel :: values.reverse ∧
    (allValues values).length = values.length + 1 ∧
    (allValues values).getD 0 sentinel = sentinel ∧
    allValues ([] : List JSVal) = [sentinel] ∧
    allValues [.num 10, .num 20, .num 30] =
      [sentinel, .num 30, .num 20, .num 10] ∧
    jsIndexOf (allValues [.num 10, .num 20, .num 30]) (.num 20) = 2 := by
  refine ⟨rfl, by simp [allValues], rfl, rfl, by decide, by decide⟩

/-- C6: when the input values are pairwise distinct and none of them is
the sentinel, index lookup and entry access over the display sequence
are mutually inverse: `indexOf (valueAt i) = i` for every valid index
`i`, and `valueAt (indexOf v) = v` for every entry `v`. -/
theorem indexMapper_roundTrip (values : List JSVal)
    (hnd : values.Nodup) (hs : sentinel ∉ values) :
    (∀ i : ℕ, ∀ h : i < (allValues values).length,
      jsIndexOf (allValues values) ((allValues values).get ⟨i, h⟩) = i) ∧
    (∀ v ∈ allValues values,
      (allValues values).getD (jsIndexOf (allValues values) v).toNat sentinel
        = v) := by
  have hand := allValues_nodup hnd hs
  constructor
  · intro i h
    rw [jsIndexOf_of_mem (List.get_mem _ _ _)]
    rw [List.get_indexOf hand ⟨i, h⟩]
  · intro v hv
    rw [jsIndexOf_of_mem hv]
    have hlt : List.indexOf v (allValues values) < (allValues values).length :=
      List.indexOf_lt_length.2 hv
    simp only [Int.toNat_natCast]
    rw [List.getD_eq_getElem?_getD, List.getElem?_eq_getElem hlt]
    simp [List.getElem_indexOf hlt]

/-- Witness for C6 at the value list `[10, 20, 30]`. -/
theorem indexMapper_roundTrip_witness :
    (([JSVal.num 10, .num 20, .num 30] : List JSVal).Nodup ∧
      sentinel ∉ ([JSVal.num 10, .num 20, .num 30] : List JSVal)) ∧
    ((∀ i : ℕ, ∀ h : i < (allValues [JSVal.num 10, .num 20, .num 30]).length,
      jsIndexOf (allValues [JSVal.num 10, .num 20, .num 30])
        ((allValues [JSVal.num 10, .num 20, .num 30]).get ⟨i, h⟩) = i) ∧
    (∀ v ∈ allValues [JSVal.num 10, .num 20, .num 30],
      (allValues [JSVal.num 10, .num 20, .num 30]).getD
        (jsIndexOf (allValues [JSVal.num 10, .num 20, .num 30]) v).toNat
        sentinel = v)) :=
  ⟨⟨by decide, by decide⟩,
    indexMapper_roundTrip [JSVal.num 10, .num 20, .num 30]
      (by decide) (by decide)⟩

/-- C1 fails on the code: the sync effect repositions by assigning
`scrollTop`, and the platform delivers the resulting scroll event to the
very `onScroll` listener the component registered — the source has no
programmatic/user origin guard — so the repositioning re-enters the
debounce cycle.  Concretely, with values `[10, 20, 30]` and the
selection `10` resting at its offset `3 * 32 = 96`, externally setting
`30` repositions to `1 * 32 = 32` and leaves the debounce timer
running; when it expires with no user scroll, the settle resolves index
`round((32 + 96/2)/32) = 3`, the entry `10`, which differs from the new
selection `30`, and `onValueChange(10)` fires: the external change both
re-enters the scroll-driven cycle and causes a callback. -/
theorem externalSet_feedback_bug :
    (step [JSVal.num 10, .num 20, .num 30]
        { scrollTop := 96, containerHeight := 96, timerPending := false,
          selectedValue := some (.num 10) }
        (.externalSet (some (.num 30)))).engine.scrollTop = 32 ∧
    (step [JSVal.num 10, .num 20, .num 30]
        { scrollTop := 96, containerHeight := 96, timerPending := false,
          selectedValue := some (.num 10) }
        (.externalSet (some (.num 30)))).engine.timerPending = true ∧
    (run [JSVal.num 10, .num 20, .num 30]
        { scrollTop := 96, containerHeight := 96, timerPending := false,
          selectedValue := some (.num 10) }
        [.externalSet (some (.num 30)), .timerFire]).2
      = [some (JSVal.num 10)] := by
  have hidx : jsIndexOf (allValues [JSVal.num 10, .num 20, .num 30]) (.num 30)
      = 1 := by decide
  have hTop : syncEffect [JSVal.num 10, .num 20, .num 30]
      (some (.num 30)) 96 = 32 := by
    simp [syncEffect, hidx, itemHeight]
  have hstep1 : step [JSVal.num 10, .num 20, .num 30]
      { scrollTop := 96, containerHeight := 96, timerPending := false,
        selectedValue := some (.num 10) } (.externalSet (some (.num 30)))
      = ⟨{ scrollTop := 32, containerHeight := 96, timerPending := true,
           selectedValue := some (.num 30) }, [], none⟩ := by
    simp [step, hTop]
  have hsettle : settleIndex (32 : ℚ) 96 = 3 := by
    rw [settleIndex, jsRound_eq, itemHeight]; norm_num
  have hcb : handleScroll [JSVal.num 10, .num 20, .num 30]
      (some (.num 30)) 32 96 = some (some (.num 10)) := by
    simp [handleScroll, hsettle, neqSelected, emitted, allValues, sentinel]
  refine ⟨?_, ?_, ?_⟩
  · rw [hstep1]
  · rw [hstep1]
  · simp only [run, hstep1]
    simp [step, hcb]

/-- C7: when the debounce timer fires, the settle step computes the index
`Math.round((scrollTop + containerHeight/2) / itemHeight)` and issues a
corrective programmatic scroll whose target is exactly that index times
`itemHeight`; the engine's offset ends at that target. -/
theorem settle_formula (values : List JSVal) (e : Engine)
    (hp : e.timerPending = true) :
    (step values e .timerFire).progScroll
      = some ((jsRound ((e.scrollTop + e.containerHeight / 2) / itemHeight) : ℚ)
          * itemHeight) ∧
    (step values e .timerFire).engine.scrollTop
      = (settleIndex e.scrollTop e.containerHeight : ℚ) * itemHeight := by
  simp [step, hp, settleIndex]

/-- Witness for C7: from offset `64` in a `96`-high container the snap
scroll targets `round(112/32) * 32 = 4 * 32 = 128`. -/
theorem settle_formula_witness :
    (({ scrollTop := 64, containerHeight := 96, timerPending := true,
        selectedValue := none } : Engine).timerPending = true) ∧
    (step [] { scrollTop := 64, containerHeight := 96, timerPending := true,
               selectedValue := none } .timerFire).progScroll
      = some ((jsRound (((64 : ℚ) + 96 / 2) / itemHeight) : ℚ) * itemHeight) ∧
    (step [] { scrollTop := 64, containerHeight := 96, timerPending := true,
               selectedValue := none } .timerFire).progScroll = some 128 := by
  have h := settle_formula []
    { scrollTop := 64, containerHeight := 96, timerPending := true,
      selectedValue := none } rfl
  refine ⟨rfl, h.1, ?_⟩
  rw [h.1]
  norm_num [jsRound_eq, itemHeight]

theorem run_debounce_eq (values : List JSVal) (ts : List ℚ) (t : ℚ) :
    ∀ e : Engine,
      run values e ((ts ++ [t]).map Event.userScroll ++ [Event.timerFire])
        = ({ e with
              scrollTop := (settleIndex t e.containerHeight : ℚ) * itemHeight,
              timerPending :=
                decide ((settleIndex t e.containerHeight : ℚ) * itemHeight ≠ t) },
           (handleScroll values e.selectedValue t e.containerHeight).toList) := by
  induction ts with
  | nil => intro e; simp [run, step]
  | cons s ts ih =>
      intro e
      simpa [run, step] using ih { e with scrollTop := s, timerPending := true }

/-- C4: for any burst of scroll events followed by the debounce timer
firing, all earlier events only restart the single timer slot: the whole
burst produces the callbacks of one settle computed from the last
offset, hence at most one callback, and the snap lands at the settle
index of the last offset times `itemHeight`. -/
theorem debounce_last_event_wins (values : List JSVal) (e : Engine)
    (ts : List ℚ) (t : ℚ) :
    (run values e ((ts ++ [t]).map Event.userScroll ++ [Event.timerFire])).2
      = (handleScroll values e.selectedValue t e.containerHeight).toList ∧
    (run values e ((ts ++ [t]).map Event.userScroll ++ [Event.timerFire])).2.length
      ≤ 1 ∧
    (run values e ((ts ++ [t]).map Event.userScroll ++ [Event.timerFire])).1.scrollTop
      = (settleIndex t e.containerHeight : ℚ) * itemHeight := by
  rw [run_debounce_eq values ts t e]
  refine ⟨rfl, ?_, rfl⟩
  cases handleScroll values e.selectedValue t e.containerHeight <;> simp

/-- C2 fails on the code: `handleItemClick` performs no comparison with
`selectedValue`, so tapping the entry equal to the current selected
value (`30` here) emits a callback carrying that same value; moreover
the settle path compares with JavaScript strict inequality, so settling
on the sentinel while the selected value is `null` emits
`onValueChange(null)` even though `null` is the current value. -/
theorem callback_idempotence_counterexample :
    (step [JSVal.num 10, .num 20, .num 30]
        { scrollTop := 96, containerHeight := 96, timerPending := false,
          selectedValue := some (.num 30) } (.tap (.num 30))).callbacks
      = [some (JSVal.num 30)] ∧
    handleScroll [JSVal.num 10, .num 20, .num 30] none 0 24 = some none := by
  constructor
  · rfl
  · have hidx : settleIndex 0 24 = 0 := by
      rw [settleIndex, jsRound_eq, itemHeight]; norm_num
    simp [handleScroll, hidx, neqSelected, emitted, allValues, sentinel]

/-- C2 amended: the debounced settle path invokes the callback only when
the resolved entry differs from the current selected value under
JavaScript strict inequality — which never identifies the sentinel with
`null` — while the tap path performs no idempotence check at all: a tap
on `v` always emits exactly the one callback `emitted v`, whatever the
current selected value is. -/
theorem callback_policy_amended (values : List JSVal)
    (selectedValue : Option JSVal) (scrollTop containerHeight : ℚ)
    (cb : Option JSVal) (e : Engine)
    (h : handleScroll values selectedValue scrollTop containerHeight = some cb) :
    neqSelected
        ((allValues values).getD
          (settleIndex scrollTop containerHeight).toNat sentinel)
        selectedValue = true ∧
    ∀ v : JSVal, (step values e (.tap v)).callbacks = [emitted v] := by
  constructor
  · simp only [handleScroll] at h
    split at h
    · split at h
      · assumption
      · exact absurd h (by simp)
    · exact absurd h (by simp)
  · intro v; rfl

/-- Witness for the amended C2: settling at offset `32` in a `96`-high
container resolves index `3` (the entry `10`) with no current selection,
so a callback fires there, and that entry indeed differs from the
selection. -/
theorem callback_policy_amended_witness :
    handleScroll [JSVal.num 10, .num 20, .num 30] none 32 96
        = some (some (.num 10)) ∧
    (neqSelected
        ((allValues [JSVal.num 10, .num 20, .num 30]).getD
          (settleIndex 32 96).toNat sentinel) none = true ∧
      ∀ v : JSVal,
        (step [JSVal.num 10, .num 20, .num 30]
          { scrollTop := 0, containerHeight := 96, timerPending := false,
            selectedValue := none } (.tap v)).callbacks = [emitted v]) := by
  have hidx : settleIndex 32 96 = 3 := by
    rw [settleIndex, jsRound_eq, itemHeight]; norm_num
  have heval : handleScroll [JSVal.num 10, .num 20, .num 30] none 32 96
      = some (some (.num 10)) := by
    simp [handleScroll, hidx, neqSelected, emitted, allValues, sentinel]
  exact ⟨heval,
    callback_policy_amended [JSVal.num 10, .num 20, .num 30] none 32 96
      (some (.num 10))
      { scrollTop := 0, containerHeight := 96, timerPending := false,
        selectedValue := none } heval⟩

/-- C3 fails on the code: at offset `200` in a `96`-high container over
`[10, 20, 30]` the settle index is `8`, outside the 4-entry display
sequence.  `handleScroll` does not clamp it to `3`; it resolves no value
at all (no callback), and the snap scroll is issued to the unclamped
target `8 * 32 = 256` rather than the clamped in-range offset
`3 * 32 = 96`. -/
theorem clamp_counterexample :
    settleIndex 200 96 = 8 ∧
    (allValues [JSVal.num 10, .num 20, .num 30]).length = 4 ∧
    handleScroll [JSVal.num 10, .num 20, .num 30] none 200 96 = none ∧
    (step [JSVal.num 10, .num 20, .num 30]
        { scrollTop := 200, containerHeight := 96, timerPending := true,
          selectedValue := none } .timerFire).progScroll = some 256 ∧
    (256 : ℚ) ≠ 3 * itemHeight := by
  have hidx : settleIndex 200 96 = 8 := by
    rw [settleIndex, jsRound_eq, itemHeight]; norm_num
  refine ⟨hidx, rfl, ?_, ?_, by rw [itemHeight]; norm_num⟩
  · simp [handleScroll, hidx, allValues]
  · have h8 : settleIndex (200 : ℚ) (96 : ℚ) = 8 := hidx
    simp [step, h8, itemHeight]
    norm_num

/-- C3 amended: an out-of-range settle index is discarded by a bounds
guard rather than clamped — no value is resolved and no callback fires,
so an undefined value is indeed never propagated — but the corrective
snap scroll is issued to the unclamped `settleIndex * itemHeight`, which
lies outside the display sequence's offsets. -/
theorem clamp_amended (values : List JSVal) (e : Engine)
    (hp : e.timerPending = true)
    (hout : ¬(0 ≤ settleIndex e.scrollTop e.containerHeight ∧
        settleIndex e.scrollTop e.containerHeight
          < ((allValues values).length : Int))) :
    (step values e .timerFire).callbacks = [] ∧
    (step values e .timerFire).progScroll
      = some ((settleIndex e.scrollTop e.containerHeight : ℚ) * itemHeight) := by
  simp [step, hp, handleScroll, hout]

/-- Witness for the amended C3 at offset `200`, container height `96`,
values `[10, 20, 30]`: the settle emits nothing and snaps to the
unclamped target. -/
theorem clamp_amended_witness :
    (({ scrollTop := 200, containerHeight := 96, timerPending := true,
        selectedValue := none } : Engine).timerPending = true ∧
      ¬(0 ≤ settleIndex (200 : ℚ) (96 : ℚ) ∧
        settleIndex (200 : ℚ) (96 : ℚ)
          < ((allValues [JSVal.num 10, .num 20, .num 30]).length : Int))) ∧
    ((step [JSVal.num 10, .num 20, .num 30]
        { scrollTop := 200, containerHeight := 96, timerPending := true,
          selectedValue := none } .timerFire).callbacks = [] ∧
      (step [JSVal.num 10, .num 20, .num 30]
        { scrollTop := 200, containerHeight := 96, timerPending := true,
          selectedValue := none } .timerFire).progScroll
        = some ((settleIndex (200 : ℚ) (96 : ℚ) : ℚ) * itemHeight)) := by
  have hidx : settleIndex 200 96 = 8 := by
    rw [settleIndex, jsRound_eq, itemHeight]; norm_num
  have hout : ¬(0 ≤ settleIndex (200 : ℚ) (96 : ℚ) ∧
      settleIndex (200 : ℚ) (96 : ℚ)
        < ((allValues [JSVal.num 10, .num 20, .num 30]).length : Int)) := by
    rw [hidx]; simp [allValues]
  exact ⟨⟨rfl, hout⟩,
    clamp_amended [JSVal.num 10, .num 20, .num 30]
      { scrollTop := 200, containerHeight := 96, timerPending := true,
        selectedValue := none } rfl hout⟩

/-- C8 fails on the code: `handleItemClick` does emit exactly one
callback (`null` for the sentinel, not the sentinel itself) and does
issue a smooth scroll to `indexOf(value) * itemHeight`, but that
programmatic scroll is delivered to the same unguarded `onScroll`
listener, so the tap passes through the debounce/Unsettled phase.
Concretely, with values `[10, 20, 30]`, selection `30` at offset `96`:
tapping the sentinel emits `null` and scrolls toward offset `0`, the
animation's scroll events restart the debounce timer, and when it
expires the settle at offset `0` resolves index `round(48/32) = 2`, the
entry `20`, emitting a second callback `onValueChange(20)` and snapping
to offset `64` — away from the tapped entry's offset `0`. -/
theorem tap_feedback_bug :
    (step [JSVal.num 10, .num 20, .num 30]
        { scrollTop := 96, containerHeight := 96, timerPending := false,
          selectedValue := some (.num 30) } (.tap sentinel)).callbacks
      = [none] ∧
    (step [JSVal.num 10, .num 20, .num 30]
        { scrollTop := 96, containerHeight := 96, timerPending := false,
          selectedValue := some (.num 30) } (.tap sentinel)).progScroll
      = some 0 ∧
    (step [JSVal.num 10, .num 20, .num 30]
        { scrollTop := 96, containerHeight := 96, timerPending := false,
          selectedValue := some (.num 30) } (.tap sentinel)).engine.timerPending
      = true ∧
    (run [JSVal.num 10, .num 20, .num 30]
        { scrollTop := 96, containerHeight := 96, timerPending := false,
          selectedValue := some (.num 30) } [.tap sentinel, .timerFire]).2
      = [none, some (JSVal.num 20)] ∧
    (run [JSVal.num 10, .num 20, .num 30]
        { scrollTop := 96, containerHeight := 96, timerPending := false,
          selectedValue := some (.num 30) } [.tap sentinel, .timerFire]).1.scrollTop
      = 64 := by
  have hidx : jsIndexOf (allValues [JSVal.num 10, .num 20, .num 30]) sentinel
      = 0 := by decide
  have htgt : (jsIndexOf (allValues [JSVal.num 10, .num 20, .num 30]) sentinel : ℚ)
      * itemHeight = 0 := by
    rw [hidx]; norm_num
  have hstep1 : step [JSVal.num 10, .num 20, .num 30]
      { scrollTop := 96, containerHeight := 96, timerPending := false,
        selectedValue := some (.num 30) } (.tap sentinel)
      = ⟨{ scrollTop := 0, containerHeight := 96, timerPending := true,
           selectedValue := some (.num 30) }, [none], some 0⟩ := by
    simp only [step, handleItemClick]
    rw [htgt]
    norm_num [emitted]
  have hsettle : settleIndex (0 : ℚ) 96 = 2 := by
    rw [settleIndex, jsRound_eq, itemHeight]; norm_num
  have hcb : handleScroll [JSVal.num 10, .num 20, .num 30]
      (some (.num 30)) 0 96 = some (some (.num 20)) := by
    simp [handleScroll, hsettle, neqSelected, emitted, allValues, sentinel]
  refine ⟨?_, ?_, ?_, ?_, ?_⟩
  · rw [hstep1]
  · rw [hstep1]
  · rw [hstep1]
  · simp only [run, hstep1]
    simp [step, hcb]
  · simp only [run, hstep1]
    norm_num [step, hsettle, itemHeight]

end Picker

namespace Trends

open Picker (jsRound jsRound_eq)

/-- One migraine report as `processReports` consumes it, already
restricted to the current month: `day` is `date.getDate()` (hence in
`1..31`), and the four stored trigger levels are JavaScript numbers. -/
structure Report where
  day : ℕ
  hydration : ℚ
  stress : ℚ
  caffeine : ℚ
  screenTime : ℚ
deriving DecidableEq

/-- The week number within the month, `Math.ceil(dayOfMonth / 7)`. -/
def weekNum (day : ℕ) : ℕ := (day + 6) / 7

/-- Appending a key to a JavaScript object's key sequence: object keys
of the form `Week N` keep first-insertion order, so a key already
present stays where it is. -/
def insertWeek (ks : List ℕ) (k : ℕ) : List ℕ :=
  if k ∈ ks then ks else ks ++ [k]

/-- The keys of `weekGroups` in `Object.entries` order: the distinct
week numbers of the reports, in first-occurrence order. -/
def weekKeys (rs : List Report) : List ℕ :=
  rs.foldl (fun ks r => insertWeek ks (weekNum r.day)) []

/-- JavaScript `x || 5` on a number `x`: `0` is falsy. -/
def orFive (q : ℚ) : ℚ := if q = 0 then 5 else q

/-- The per-week average of one trigger field,
`reports.reduce((sum, r) => sum + (r.f || 5), 0) / reports.length`. -/
def avgOf (f : Report → ℚ) (rs : List Report) : ℚ :=
  (rs.map fun r => orFive (f r)).sum / rs.length

/-- `parseFloat(q.toFixed(1))`: round to one decimal place (ties away
from zero for the nonnegative values that occur here). -/
def round1 (q : ℚ) : ℚ := (jsRound (q * 10) : ℚ) / 10

/-- The simulated sleep value before rounding:
`Math.min(3.5 + (weekNum - 1) * 0.8, 7.5)`. -/
def sleepRaw (w : ℕ) : ℚ := min (3.5 + ((w : ℚ) - 1) * 0.8) 7.5

/-- One output row of the pipeline (the `week` label is kept as the
parsed week number). -/
structure WeekData where
  week : ℕ
  hydration : ℚ
  stress : ℚ
  caffeine : ℚ
  screenTime : ℚ
  sleep : ℚ
deriving DecidableEq

/-- The row built for week `w` from its group of reports. -/
def mkWeekData (w : ℕ) (rs : List Report) : WeekData :=
  { week := w
    hydration := round1 (avgOf (·.hydration) rs)
    stress := round1 (avgOf (·.stress) rs)
    caffeine := round1 (avgOf (·.caffeine) rs)
    screenTime := round1 (avgOf (·.screenTime) rs)
    sleep := round1 (sleepRaw w) }

/-- The `processReports` pipeline on the current month's reports: group
by week number (object keys in first-occurrence order), build one row
per occupied week, and sort the rows by week number. -/
def processReports (rs : List Report) : List WeekData :=
  ((weekKeys rs).map fun w =>
      mkWeekData w (rs.filter fun r => weekNum r.day == w)).mergeSort
    fun a b => a.week ≤ b.week

theorem mem_insertWeek {ks : List ℕ} {k a : ℕ} :
    a ∈ insertWeek ks k ↔ a ∈ ks ∨ a = k := by
  by_cases h : k ∈ ks
  · rw [insertWeek, if_pos h]
    constructor
    · exact Or.inl
    · rintro (ha | rfl)
      · exact ha
      · exact h
  · rw [insertWeek, if_neg h]
    simp

theorem nodup_insertWeek {ks : List ℕ} (h : ks.Nodup) (k : ℕ) :
    (insertWeek ks k).Nodup := by
  by_cases hk : k ∈ ks
  · rw [insertWeek, if_pos hk]; exact h
  · rw [insertWeek, if_neg hk]
    simp [List.nodup_append, h, hk]

theorem mem_foldl_insertWeek (rs : List Report) :
    ∀ (acc : List ℕ) (w : ℕ),
      w ∈ rs.foldl (fun ks r => insertWeek ks (weekNum r.day)) acc ↔
        w ∈ acc ∨ ∃ r ∈ rs, weekNum r.day = w := by
  induction rs with
  | nil => intro acc w; simp
  | cons r rs ih =>
      intro acc w
      rw [List.foldl_cons, ih, mem_insertWeek]
      constructor
      · rintro (⟨h | h⟩ | ⟨r', hr', h⟩)
        · exact Or.inl h
        · exact Or.inr ⟨r, List.mem_cons_self _ _, h.symm⟩
        · exact Or.inr ⟨r', List.mem_cons_of_mem _ hr', h⟩
      · rintro (h | ⟨r', hr', h⟩)
        · exact Or.inl (Or.inl h)
        · rcases List.mem_cons.1 hr' with rfl | hr'
          · exact Or.inl (Or.inr h.symm)
          · exact Or.inr ⟨r', hr', h⟩

theorem nodup_foldl_insertWeek (rs : List Report) :
    ∀ acc : List ℕ, acc.Nodup →
      (rs.foldl (fun ks r => insertWeek ks (weekNum r.day)) acc).Nodup := by
  induction rs with
  | nil => intro acc h; simpa using h
  | cons r rs ih =>
      intro acc h
      exact ih _ (nodup_insertWeek h _)

theorem mem_weekKeys {rs : List Report} {w : ℕ} :
    w ∈ weekKeys rs ↔ ∃ r ∈ rs, weekNum r.day = w := by
  rw [weekKeys, mem_foldl_insertWeek]
  simp

theorem nodup_weekKeys (rs : List Report) : (weekKeys rs).Nodup :=
  nodup_foldl_insertWeek rs [] List.nodup_nil

theorem map_week_processReports (rs : List Report) :
    (processReports rs).map (·.week)
      = (weekKeys rs).mergeSort fun a b => a ≤ b := by
  rw [processReports,
    @List.map_mergeSort WeekData ℕ (fun a b => decide (a.week ≤ b.week))
      (fun a b => decide (a ≤ b)) (fun e => e.week)
      ((weekKeys rs).map fun w =>
        mkWeekData w (rs.filter fun r => weekNum r.day == w))
      (fun a _ b _ => rfl)]
  simp only [List.map_map]
  congr 1
  simp [Function.comp_def, mkWeekData]

theorem mem_processReports {rs : List Report} {e : WeekData} :
    e ∈ processReports rs ↔
      ∃ w ∈ weekKeys rs,
        mkWeekData w (rs.filter fun r => weekNum r.day == w) = e := by
  rw [processReports, List.mem_mergeSort, List.mem_map]

/-- C9: on a non-empty month of reports, every report lands in week
`ceil(day/7) ∈ 1..5`, the pipeline emits exactly one row per occupied
week (the rows' week numbers are duplicate-free and are exactly the
occupied weeks), and the rows come out sorted by ascending week number. -/
theorem weeklyTrends_pipeline (rs : List Report) (hne : rs ≠ [])
    (hday : ∀ r ∈ rs, 1 ≤ r.day ∧ r.day ≤ 31) :
    (∀ r ∈ rs, 1 ≤ weekNum r.day ∧ weekNum r.day ≤ 5) ∧
    ((processReports rs).map (·.week)).Nodup ∧
    (∀ w : ℕ,
      w ∈ (processReports rs).map (·.week) ↔ ∃ r ∈ rs, weekNum r.day = w) ∧
    ((processReports rs).map (·.week)).Sorted (· ≤ ·) ∧
    processReports rs ≠ [] := by
  have hmem : ∀ w : ℕ,
      w ∈ (processReports rs).map (·.week) ↔ ∃ r ∈ rs, weekNum r.day = w := by
    intro w
    rw [map_week_processReports, List.mem_mergeSort, mem_weekKeys]
  refine ⟨?_, ?_, hmem, ?_, ?_⟩
  · intro r hr
    have := (hday r hr).1
    have := (hday r hr).2
    unfold weekNum
    omega
  · rw [map_week_processReports]
    exact ((List.mergeSort_perm (weekKeys rs) _).nodup_iff).2 (nodup_weekKeys rs)
  · rw [map_week_processReports]
    have hs := @List.sorted_mergeSort ℕ (fun a b => decide (a ≤ b))
      (fun a b c hab hbc => by
        simp only [decide_eq_true_eq] at hab hbc ⊢; omega)
      (fun a b => by simpa using Nat.le_total a b)
      (weekKeys rs)
    exact hs.imp fun h => by simpa using h
  · obtain ⟨r, hr⟩ := List.exists_mem_of_ne_nil rs hne
    have hw := (hmem (weekNum r.day)).2 ⟨r, hr, rfl⟩
    rcases List.mem_map.1 hw with ⟨e, he, _⟩
    exact List.ne_nil_of_mem he

/-- Witness for C9 on two reports in weeks 1 and 3. -/
theorem weeklyTrends_pipeline_witness :
    (([⟨5, 7, 4, 4, 5⟩, ⟨20, 3, 8, 7, 8⟩] : List Report) ≠ [] ∧
      ∀ r ∈ ([⟨5, 7, 4, 4, 5⟩, ⟨20, 3, 8, 7, 8⟩] : List Report),
        1 ≤ r.day ∧ r.day ≤ 31) ∧
    ((∀ r ∈ ([⟨5, 7, 4, 4, 5⟩, ⟨20, 3, 8, 7, 8⟩] : List Report),
        1 ≤ weekNum r.day ∧ weekNum r.day ≤ 5) ∧
      ((processReports [⟨5, 7, 4, 4, 5⟩, ⟨20, 3, 8, 7, 8⟩]).map (·.week)).Nodup ∧
      (∀ w : ℕ,
        w ∈ (processReports [⟨5, 7, 4, 4, 5⟩, ⟨20, 3, 8, 7, 8⟩]).map (·.week) ↔
          ∃ r ∈ ([⟨5, 7, 4, 4, 5⟩, ⟨20, 3, 8, 7, 8⟩] : List Report),
            weekNum r.day = w) ∧
      ((processReports [⟨5, 7, 4, 4, 5⟩, ⟨20, 3, 8, 7, 8⟩]).map
          (·.week)).Sorted (· ≤ ·) ∧
      processReports [⟨5, 7, 4, 4, 5⟩, ⟨20, 3, 8, 7, 8⟩] ≠ []) :=
  ⟨⟨by decide, by decide⟩,
    weeklyTrends_pipeline [⟨5, 7, 4, 4, 5⟩, ⟨20, 3, 8, 7, 8⟩]
      (by decide) (by decide)⟩

theorem jsRound_intCast (n : ℤ) : jsRound ((n : ℚ)) = n := by
  rw [jsRound_eq, Int.floor_int_add]
  norm_num

theorem round1_of_mul_ten {q : ℚ} {n : ℤ} (h : q * 10 = (n : ℚ)) :
    round1 q = q := by
  rw [round1, h, jsRound_intCast, ← h]
  ring

theorem sleepRaw_mul_ten (w : ℕ) :
    sleepRaw w * 10 = ((min (35 + 8 * ((w : ℤ) - 1)) 75 : ℤ) : ℚ) := by
  rw [sleepRaw]
  push_cast
  rcases le_total ((3.5 : ℚ) + ((w : ℚ) - 1) * 0.8) 7.5 with h | h
  · rw [min_eq_left h, min_eq_left (by nlinarith)]
    ring
  · rw [min_eq_right h, min_eq_right (by nlinarith)]
    norm_num

theorem round1_sleepRaw (w : ℕ) : round1 (sleepRaw w) = sleepRaw w :=
  round1_of_mul_ten (sleepRaw_mul_ten w)

theorem sleepRaw_bounds {w : ℕ} (hw : 1 ≤ w) :
    (3.5 : ℚ) ≤ sleepRaw w ∧ sleepRaw w ≤ 7.5 := by
  have hw1 : (1 : ℚ) ≤ (w : ℚ) := by exact_mod_cast hw
  refine ⟨le_min (by nlinarith) (by norm_num), min_le_right _ _⟩

theorem sleep_eq_of_mem {rs : List Report} {e : WeekData}
    (h : e ∈ processReports rs) : e.sleep = round1 (sleepRaw e.week) := by
  obtain ⟨w, _, rfl⟩ := mem_processReports.1 h
  rfl

theorem map_sleep_processReports (rs : List Report) :
    (processReports rs).map (·.sleep)
      = ((processReports rs).map (·.week)).map fun w => round1 (sleepRaw w) := by
  rw [List.map_map]
  exact List.map_congr_left fun e he => sleep_eq_of_mem he

/-- C10: the reported sleep value of each output row is a function of
the week number alone, `min(3.5 + 0.8 * (w - 1), 7.5)` rounded to one
decimal (the rounding changes nothing, the value being an exact tenth),
it always lies in `[3.5, 7.5]`, the row builder's sleep field ignores
the report group entirely, and two runs whose outputs occupy the same
week numbers report identical sleep values. -/
theorem sleep_week_function (rs rs2 : List Report)
    (hday : ∀ r ∈ rs, 1 ≤ r.day) :
    (∀ e ∈ processReports rs,
      e.sleep = round1 (min (3.5 + 0.8 * ((e.week : ℚ) - 1)) 7.5) ∧
      e.sleep = min (3.5 + 0.8 * ((e.week : ℚ) - 1)) 7.5 ∧
      (3.5 : ℚ) ≤ e.sleep ∧ e.sleep ≤ 7.5) ∧
    (∀ (w : ℕ) (g1 g2 : List Report),
      (mkWeekData w g1).sleep = (mkWeekData w g2).sleep) ∧
    ((processReports rs).map (·.week) = (processReports rs2).map (·.week) →
      (processReports rs).map (·.sleep)
        = (processReports rs2).map (·.sleep)) := by
  have hform : ∀ w : ℕ, sleepRaw w = min (3.5 + 0.8 * ((w : ℚ) - 1)) 7.5 := by
    intro w; rw [sleepRaw, mul_comm]
  refine ⟨?_, fun w g1 g2 => rfl, ?_⟩
  · intro e he
    have hsleep := sleep_eq_of_mem he
    have hraw := round1_sleepRaw e.week
    have hweek : 1 ≤ e.week := by
      have hmem : e.week ∈ (processReports rs).map (·.week) :=
        List.mem_map.2 ⟨e, he, rfl⟩
      rw [map_week_processReports, List.mem_mergeSort, mem_weekKeys] at hmem
      obtain ⟨r, hr, hr2⟩ := hmem
      have := hday r hr
      rw [← hr2]
      unfold weekNum
      omega
    have hb := sleepRaw_bounds hweek
    rw [← hform]
    refine ⟨hsleep, hsleep.trans hraw, ?_, ?_⟩
    · rw [hsleep, hraw]; exact hb.1
    · rw [hsleep, hraw]; exact hb.2
  · intro hweeks
    rw [map_sleep_processReports, map_sleep_processReports, hweeks]

/-- Witness for C10 on two runs occupying weeks 1 and 3 with different
report data. -/
theorem sleep_week_function_witness :
    (∀ r ∈ ([⟨5, 7, 4, 4, 5⟩, ⟨20, 3, 8, 7, 8⟩] : List Report), 1 ≤ r.day) ∧
    ((∀ e ∈ processReports [⟨5, 7, 4, 4, 5⟩, ⟨20, 3, 8, 7, 8⟩],
        e.sleep = round1 (min (3.5 + 0.8 * ((e.week : ℚ) - 1)) 7.5) ∧
        e.sleep = min (3.5 + 0.8 * ((e.week : ℚ) - 1)) 7.5 ∧
        (3.5 : ℚ) ≤ e.sleep ∧ e.sleep ≤ 7.5) ∧
      (∀ (w : ℕ) (g1 g2 : List Report),
        (mkWeekData w g1).sleep = (mkWeekData w g2).sleep) ∧
      ((processReports [⟨5, 7, 4, 4, 5⟩, ⟨20, 3, 8, 7, 8⟩]).map (·.week)
          = (processReports [⟨3, 1, 1, 1, 1⟩, ⟨16, 9, 9, 9, 9⟩]).map (·.week) →
        (processReports [⟨5, 7, 4, 4, 5⟩, ⟨20, 3, 8, 7, 8⟩]).map (·.sleep)
          = (processReports [⟨3, 1, 1, 1, 1⟩, ⟨16, 9, 9, 9, 9⟩]).map (·.sleep))) :=
  ⟨by decide,
    sleep_week_function [⟨5, 7, 4, 4, 5⟩, ⟨20, 3, 8, 7, 8⟩]
      [⟨3, 1, 1, 1, 1⟩, ⟨16, 9, 9, 9, 9⟩] (by decide)⟩

end Trends
